import Mathlib

/-!
Verification of the discrete-event simulation core of the repository:
`src/simulation/store.py` (a simpy-style Store with put / get / peek /
get_triggered request queues), `src/simulation/conveyor.py` (a transport
variant adding processing / ready queues, pop / push requests, capacity and
spacing checks) and `src/simulation/test_yield.py` (the Station/Order
worker-pool base class).

All code is embedded shallowly: python lists become `List`, python numbers
become `ℚ` (or `Int`/`Nat` where the source uses integers), code that can
raise becomes `Except String`.  Requests (simpy events) are records carrying
an identifier `rid` (standing for python object identity), their payload,
the `triggered` flag and, once succeeded, their value.
-/

instance {ε α : Type} [DecidableEq ε] [DecidableEq α] : DecidableEq (Except ε α) := fun a b =>
  match a, b with
  | .error x, .error y =>
    if h : x = y then .isTrue (by rw [h]) else .isFalse (fun hh => by cases hh; exact h rfl)
  | .ok x, .ok y =>
    if h : x = y then .isTrue (by rw [h]) else .isFalse (fun hh => by cases hh; exact h rfl)
  | .error x, .ok y => .isFalse (fun hh => by cases hh)
  | .ok x, .error y => .isFalse (fun hh => by cases hh)

namespace Sim

/-- Result of one run of a `_trigger_K` while-loop: the updated resource
state, the queue that remains, the requests that became triggered during the
pass (each was removed from the queue exactly once, in order), and how many
queue entries the loop examined (how many times `do_K` was called). -/
structure TrigResult (σ ρ : Type) where
  state : σ
  queue : List ρ
  fired : List ρ
  examined : Nat
deriving Repr, DecidableEq

/-- The `_trigger_K` while-loop shared verbatim by every trigger routine of
`store.py` (`_trigger_put`, `_trigger_get`, `_trigger_peek`,
`_trigger_get_triggered`) and `conveyor.py` (`_trigger_peek`,
`_trigger_get_triggered`, `_trigger_pop`, `_trigger_push`, and the
inherited `BaseResource._trigger_put` / `_trigger_get` with the same shape):

    idx = 0
    while idx < len(queue):
        event = queue[idx]
        proceed = do_K(event)
        if not event.triggered:
            idx += 1
        elif queue.pop(idx) != event:
            raise RuntimeError(msg)
        if not proceed:
            break

`doK` returns the updated resource state, the updated request (python
mutates the request in place, so after the call the queue cell holds the
updated request) and the raw python return value of `_do_K`
(`Option Bool`: `none` models `None`).  `beq` models python `!=` on request
objects, i.e. object identity, rendered as `rid` equality.  Since `do_K`
mutates the request in place, `queue.pop(idx)` returns exactly the request
just examined; the identity check is kept to mirror the fatal-error branch
of the source. -/
def triggerGo {σ ρ : Type} (doK : σ → ρ → Except String (σ × ρ × Option Bool))
    (isTrig : ρ → Bool) (beq : ρ → ρ → Bool) (msg : String) :
    σ → List ρ → Except String (TrigResult σ ρ)
  | s, [] => .ok ⟨s, [], [], 0⟩
  | s, r :: rest =>
    match doK s r with
    | .error m => .error m
    | .ok (s1, r1, proceed) =>
      if isTrig r1 then
        -- the queue cell holds the (in-place mutated) request r1; pop returns it
        if beq r1 r1 then
          -- python `if not proceed: break`: only `some true` continues scanning
          if proceed = some true then
            match triggerGo doK isTrig beq msg s1 rest with
            | .error m => .error m
            | .ok res => .ok ⟨res.state, res.queue, r1 :: res.fired, res.examined + 1⟩
          else .ok ⟨s1, rest, [r1], 1⟩
        else .error msg
      else
        if proceed = some true then
          match triggerGo doK isTrig beq msg s1 rest with
          | .error m => .error m
          | .ok res => .ok ⟨res.state, r1 :: res.queue, res.fired, res.examined + 1⟩
        else .ok ⟨s1, r1 :: rest, [], 1⟩

/-- Python `list.remove(x)`: drop the first occurrence satisfying the
identity test, `ValueError` when there is none. -/
def removeFirst {ρ : Type} (q : List ρ) (same : ρ → Bool) : Except String (List ρ) :=
  match q with
  | [] => .error "list.remove(x): x not in list"
  | x :: rest =>
    if same x then .ok rest
    else
      match removeFirst rest same with
      | .error m => .error m
      | .ok q1 => .ok (x :: q1)

end Sim


namespace store

/-- Capacity of `store.Store`: the python default is `float('inf')`,
otherwise a finite number (`Union[float, int]`). -/
inductive Cap
  | inf
  | fin (c : ℚ)
deriving Repr, DecidableEq

/-- Python `capacity <= 0` (`float('inf') <= 0` is false). -/
def Cap.le0 : Cap → Bool
  | .inf => false
  | .fin c => decide (c ≤ 0)

/-- Python `len(items) < capacity` (always true for `float('inf')`). -/
def Cap.ltCap (n : Nat) : Cap → Bool
  | .inf => true
  | .fin c => decide ((n : ℚ) < c)

/-- `store.Put` / `store.StorePut` request: payload item, `triggered` flag
and the value passed to `event.succeed` (always `True` for puts). -/
structure Put (α : Type) where
  rid : Nat
  item : α
  triggered : Bool
  value : Option Bool
deriving Repr, DecidableEq

/-- `store.Get` / `store.StoreGet` request. -/
structure Get (α : Type) where
  rid : Nat
  triggered : Bool
  value : Option α
deriving Repr, DecidableEq

/-- `store.Peek` / `store.StorePeek` request. -/
structure Peek (α : Type) where
  rid : Nat
  triggered : Bool
  value : Option α
deriving Repr, DecidableEq

/-- `store.GetTriggered` / `store.StoreGetTriggered` request. -/
structure GetTriggered where
  rid : Nat
  triggered : Bool
  value : Option Bool
deriving Repr, DecidableEq

def mkPut {α : Type} (rid : Nat) (a : α) : Put α := ⟨rid, a, false, none⟩

def mkGet (α : Type) (rid : Nat) : Get α := ⟨rid, false, none⟩

def mkPeek (α : Type) (rid : Nat) : Peek α := ⟨rid, false, none⟩

def mkGetTriggered (rid : Nat) : GetTriggered := ⟨rid, false, none⟩

/-- `store.Store`: items plus the four request queues. -/
structure Store (α : Type) where
  capacity : Cap
  items : List α
  put_queue : List (Put α)
  get_queue : List (Get α)
  peek_queue : List (Peek α)
  get_triggered_queue : List GetTriggered
deriving Repr, DecidableEq

/-- `store.Store.__init__`: raises `ValueError` when `capacity <= 0`,
otherwise all queues and the item list start empty. -/
def Store.init (α : Type) (capacity : Cap) : Except String (Store α) :=
  if Cap.le0 capacity then .error "\"capacity\" must be > 0."
  else .ok ⟨capacity, [], [], [], [], []⟩

/-- `store.Store._do_put`: append the item and succeed the event with `True`
when there is room; the method returns `None` in both cases. -/
def do_put {α : Type} (s : Store α) (e : Put α) :
    Except String (Store α × Put α × Option Bool) :=
  if Cap.ltCap s.items.length s.capacity then
    .ok ({ s with items := s.items ++ [e.item] },
         { e with triggered := true, value := some true }, none)
  else .ok (s, e, none)

/-- `store.Store._do_get`: pop and return the head item when one is present;
returns `None` in both cases. -/
def do_get {α : Type} (s : Store α) (e : Get α) :
    Except String (Store α × Get α × Option Bool) :=
  match s.items with
  | [] => .ok (s, e, none)
  | x :: rest =>
    .ok ({ s with items := rest }, { e with triggered := true, value := some x }, none)

/-- `store.Store._do_peek`: succeed with the head item, without removal. -/
def do_peek {α : Type} (s : Store α) (e : Peek α) :
    Except String (Store α × Peek α × Option Bool) :=
  match s.items with
  | [] => .ok (s, e, none)
  | x :: _ => .ok (s, { e with triggered := true, value := some x }, none)

/-- `store.Store._do_get_triggered`: succeed with `True` once the store is
empty. -/
def do_get_triggered {α : Type} (s : Store α) (e : GetTriggered) :
    Except String (Store α × GetTriggered × Option Bool) :=
  match s.items with
  | [] => .ok (s, { e with triggered := true, value := some true }, none)
  | _ :: _ => .ok (s, e, none)

def Put.isTrig {α : Type} (e : Put α) : Bool := e.triggered

def Put.sameAs {α : Type} (a b : Put α) : Bool := a.rid == b.rid

def Get.isTrig {α : Type} (e : Get α) : Bool := e.triggered

def Get.sameAs {α : Type} (a b : Get α) : Bool := a.rid == b.rid

def Peek.isTrig {α : Type} (e : Peek α) : Bool := e.triggered

def Peek.sameAs {α : Type} (a b : Peek α) : Bool := a.rid == b.rid

def GetTriggered.isTrig (e : GetTriggered) : Bool := e.triggered

def GetTriggered.sameAs (a b : GetTriggered) : Bool := a.rid == b.rid

/-- `store.Store._trigger_put` run on the given queue. -/
def trigger_put_go {α : Type} (s : Store α) (q : List (Put α)) :
    Except String (Sim.TrigResult (Store α) (Put α)) :=
  Sim.triggerGo do_put Put.isTrig Put.sameAs "Put queue invariant violated" s q

/-- `store.Store._trigger_get` run on the given queue. -/
def trigger_get_go {α : Type} (s : Store α) (q : List (Get α)) :
    Except String (Sim.TrigResult (Store α) (Get α)) :=
  Sim.triggerGo do_get Get.isTrig Get.sameAs "Get queue invariant violated" s q

/-- `store.Store._trigger_peek` run on the given queue. -/
def trigger_peek_go {α : Type} (s : Store α) (q : List (Peek α)) :
    Except String (Sim.TrigResult (Store α) (Peek α)) :=
  Sim.triggerGo do_peek Peek.isTrig Peek.sameAs "Get queue invariant violated" s q

/-- `store.Store._trigger_get_triggered` run on the given queue. -/
def trigger_get_triggered_go {α : Type} (s : Store α) (q : List GetTriggered) :
    Except String (Sim.TrigResult (Store α) GetTriggered) :=
  Sim.triggerGo do_get_triggered GetTriggered.isTrig GetTriggered.sameAs
    "Get queue invariant violated" s q

/-- `store.Store._trigger_put` as a method on the store. -/
def trigger_put {α : Type} (s : Store α) : Except String (Store α) :=
  match trigger_put_go s s.put_queue with
  | .error m => .error m
  | .ok res => .ok { res.state with put_queue := res.queue }

/-- `store.Store._trigger_get` as a method on the store. -/
def trigger_get {α : Type} (s : Store α) : Except String (Store α) :=
  match trigger_get_go s s.get_queue with
  | .error m => .error m
  | .ok res => .ok { res.state with get_queue := res.queue }

/-- `store.Put.cancel`: remove the request from `put_queue` unless it is
already triggered; `list.remove` raises when the request is absent. -/
def Put.cancel {α : Type} (s : Store α) (e : Put α) : Except String (Store α) :=
  if e.triggered then .ok s
  else
    match Sim.removeFirst s.put_queue (fun r => r.rid == e.rid) with
    | .error m => .error m
    | .ok q => .ok { s with put_queue := q }

/-- `store.Get.cancel`. -/
def Get.cancel {α : Type} (s : Store α) (e : Get α) : Except String (Store α) :=
  if e.triggered then .ok s
  else
    match Sim.removeFirst s.get_queue (fun r => r.rid == e.rid) with
    | .error m => .error m
    | .ok q => .ok { s with get_queue := q }

/-- `store.Peek.cancel`. -/
def Peek.cancel {α : Type} (s : Store α) (e : Peek α) : Except String (Store α) :=
  if e.triggered then .ok s
  else
    match Sim.removeFirst s.peek_queue (fun r => r.rid == e.rid) with
    | .error m => .error m
    | .ok q => .ok { s with peek_queue := q }

/-- `store.GetTriggered.cancel`. -/
def GetTriggered.cancel {α : Type} (s : Store α) (e : GetTriggered) :
    Except String (Store α) :=
  if e.triggered then .ok s
  else
    match Sim.removeFirst s.get_triggered_queue (fun r => r.rid == e.rid) with
    | .error m => .error m
    | .ok q => .ok { s with get_triggered_queue := q }

/-- The trigger routines a request registers as callbacks on itself
(`store.py`): a callback runs when the environment processes the event. -/
inductive Cb
  | trigPut
  | trigGet
  | trigPeek
  | trigGetTriggered
deriving Repr, DecidableEq

/-- `store.Put.__init__` registers `[_trigger_get, _trigger_peek]`
(lines 46-47). -/
def putCallbacks : List Cb := [.trigGet, .trigPeek]

/-- `store.Get.__init__` registers `[_trigger_get_triggered]` (line 98) —
not `_trigger_put`. -/
def getCallbacks : List Cb := [.trigGetTriggered]

/-- `store.Peek.__init__` registers no callbacks (line 149 is commented
out). -/
def peekCallbacks : List Cb := []

/-- `store.GetTriggered.__init__` registers `[_trigger_put]` (line 201). -/
def getTriggeredCallbacks : List Cb := [.trigPut]

/-- The simpy environment as far as the store scenarios need it: the
current simulated time, the store, and the FIFO list of succeeded events
whose callbacks have not run yet (each entry is that event's callback
list). `event.succeed` schedules the event at the current time; the
environment later pops it and runs its callbacks in order. -/
structure Env (α : Type) where
  now : ℚ
  store : Store α
  pending : List (List Cb)
deriving Repr, DecidableEq

/-- Run `_trigger_put` on the given queue and schedule the callback lists of
every put request that succeeded during the pass. -/
def putPass {α : Type} (e : Env α) (q : List (Put α)) :
    Except String (Env α × List (Put α)) :=
  match trigger_put_go e.store q with
  | .error m => .error m
  | .ok res =>
    .ok ({ e with store := { res.state with put_queue := res.queue },
                  pending := e.pending ++ res.fired.map (fun _ => putCallbacks) },
         res.fired)

/-- Run `_trigger_get` on the given queue, scheduling callbacks of fired
get requests. -/
def getPass {α : Type} (e : Env α) (q : List (Get α)) :
    Except String (Env α × List (Get α)) :=
  match trigger_get_go e.store q with
  | .error m => .error m
  | .ok res =>
    .ok ({ e with store := { res.state with get_queue := res.queue },
                  pending := e.pending ++ res.fired.map (fun _ => getCallbacks) },
         res.fired)

/-- Run `_trigger_peek` on the given queue, scheduling callbacks of fired
peek requests. -/
def peekPass {α : Type} (e : Env α) (q : List (Peek α)) :
    Except String (Env α × List (Peek α)) :=
  match trigger_peek_go e.store q with
  | .error m => .error m
  | .ok res =>
    .ok ({ e with store := { res.state with peek_queue := res.queue },
                  pending := e.pending ++ res.fired.map (fun _ => peekCallbacks) },
         res.fired)

/-- Run `_trigger_get_triggered` on the given queue, scheduling callbacks of
fired get_triggered requests. -/
def getTriggeredPass {α : Type} (e : Env α) (q : List GetTriggered) :
    Except String (Env α × List GetTriggered) :=
  match trigger_get_triggered_go e.store q with
  | .error m => .error m
  | .ok res =>
    .ok ({ e with store := { res.state with get_triggered_queue := res.queue },
                  pending := e.pending ++ res.fired.map (fun _ => getTriggeredCallbacks) },
         res.fired)

/-- Run one callback: a trigger pass over the corresponding queue. -/
def runTrigger {α : Type} (e : Env α) (cb : Cb) : Except String (Env α) :=
  match cb with
  | .trigPut =>
    match putPass e e.store.put_queue with
    | .error m => .error m
    | .ok (e1, _) => .ok e1
  | .trigGet =>
    match getPass e e.store.get_queue with
    | .error m => .error m
    | .ok (e1, _) => .ok e1
  | .trigPeek =>
    match peekPass e e.store.peek_queue with
    | .error m => .error m
    | .ok (e1, _) => .ok e1
  | .trigGetTriggered =>
    match getTriggeredPass e e.store.get_triggered_queue with
    | .error m => .error m
    | .ok (e1, _) => .ok e1

/-- Run an event's callbacks in registration order. -/
def runCbs {α : Type} (e : Env α) : List Cb → Except String (Env α)
  | [] => .ok e
  | cb :: rest =>
    match runTrigger e cb with
    | .error m => .error m
    | .ok e1 => runCbs e1 rest

/-- The environment processes the oldest scheduled event: its callbacks
run in order (they may schedule further events). -/
def processNext {α : Type} (e : Env α) : Except String (Env α) :=
  match e.pending with
  | [] => .ok e
  | cbs :: rest => runCbs { e with pending := rest } cbs

/-- `store.StorePut.__init__` at environment level: append the new request
to `put_queue` and run `_trigger_put`.  Returns the requests fired during
the pass (the new request itself when it succeeded immediately). -/
def envPut {α : Type} (e : Env α) (rid : Nat) (a : α) :
    Except String (Env α × List (Put α)) :=
  putPass e (e.store.put_queue ++ [mkPut rid a])

/-- `store.StoreGet.__init__` at environment level. -/
def envGet {α : Type} (e : Env α) (rid : Nat) :
    Except String (Env α × List (Get α)) :=
  getPass e (e.store.get_queue ++ [mkGet α rid])

/-- Store of capacity 1 as built by `Store(env, capacity=1)`. -/
def store1 : Store String := ⟨.fin 1, [], [], [], [], []⟩

/-- A capacity-1 store with one pending put request, for the cancellation
counterexample. -/
def store1p : Store String := { store1 with put_queue := [mkPut 0 "x"] }

/-- The spec scenario on a Store of capacity 1: `put("a")` at t=0,
`put("b")` at t=0, the environment processes the scheduled event, `get()`
at t=5, the environment processes the scheduled event.  Returns the get
requests fired by the `get()` call, the final store, and the list of
still-unprocessed events. -/
def scenario : Except String (List (Get String) × Store String × List (List Cb)) := do
  let e0 : Env String := ⟨0, store1, []⟩
  let (e1, _) ← envPut e0 0 "a"
  let (e2, _) ← envPut e1 1 "b"
  let e3 ← processNext e2
  let e4 : Env String := { e3 with now := 5 }
  let (e5, gfired) ← envGet e4 2
  let e6 ← processNext e5
  .ok (gfired, e6.store, e6.pending)

end store

namespace conveyor

/-- An entry of `processing_queue`: the python dict
`{"data": item, "startTime": env.now}` (a two-key dict, hence always
truthy). -/
structure ProcEntry (α : Type) where
  data : α
  startTime : ℚ
deriving Repr, DecidableEq

/-- Python truthiness of a processing-queue entry: a non-empty dict is
always truthy. -/
def ProcEntry.truthy {α : Type} (_ : ProcEntry α) : Bool := true

/-- `conveyor.Put` / `conveyor.StorePut` request. -/
structure Put (α : Type) where
  rid : Nat
  item : α
  triggered : Bool
  value : Option Bool
deriving Repr, DecidableEq

/-- `conveyor.Get` / `conveyor.StoreGet` request: its payload is the index
into `processing_queue`. -/
structure Get (α : Type) where
  rid : Nat
  item : Int
  triggered : Bool
  value : Option (ProcEntry α)
deriving Repr, DecidableEq

/-- `conveyor.Peek` / `conveyor.StorePeek` request. -/
structure Peek (α : Type) where
  rid : Nat
  triggered : Bool
  value : Option α
deriving Repr, DecidableEq

/-- `conveyor.GetTriggered` / `conveyor.StoreGetTriggered` request. -/
structure GetTriggered where
  rid : Nat
  triggered : Bool
  value : Option Bool
deriving Repr, DecidableEq

/-- `conveyor.Pop` / `conveyor.StorePop` request. -/
structure Pop (α : Type) where
  rid : Nat
  triggered : Bool
  value : Option α
deriving Repr, DecidableEq

/-- `conveyor.Push` / `conveyor.StorePush` request. -/
structure Push (α : Type) where
  rid : Nat
  item : α
  triggered : Bool
  value : Option Bool
deriving Repr, DecidableEq

def mkPut {α : Type} (rid : Nat) (a : α) : Put α := ⟨rid, a, false, none⟩

def mkGet (α : Type) (rid : Nat) (i : Int) : Get α := ⟨rid, i, false, none⟩

def mkPop (α : Type) (rid : Nat) : Pop α := ⟨rid, false, none⟩

def mkPush {α : Type} (rid : Nat) (a : α) : Push α := ⟨rid, a, false, none⟩

/-- `conveyor.Store`: the class named `Store` in `conveyor.py` (the
Conveyor of the spec).  `capacity` and `distance` use `-1` as the
"unbounded" / "disabled" sentinel. -/
structure Store (α : Type) where
  capacity : Int
  length : ℚ
  speed : ℚ
  acceleration : ℚ
  deceleration : ℚ
  distance : ℚ
  items : List α
  processing_queue : List (ProcEntry α)
  ready_queue : List α
  put_queue : List (Put α)
  get_queue : List (Get α)
  peek_queue : List (Peek α)
  get_triggered_queue : List GetTriggered
  pop_queue : List (Pop α)
  push_queue : List (Push α)
deriving Repr, DecidableEq

/-- `conveyor.Store.__init__` (python defaults `capacity=-1, length=2,
speed=1, acceleration=0, deceleration=0, distance=-1`): no validation of
any argument — every capacity value, bounded or not, is accepted. -/
def Store.init (α : Type) (capacity : Int) (length speed acceleration deceleration distance : ℚ) :
    Store α :=
  ⟨capacity, length, speed, acceleration, deceleration, distance,
   [], [], [], [], [], [], [], [], []⟩

/-- `conveyor.Store._get_duration` = `length / speed`. -/
def get_duration {α : Type} (s : Store α) : ℚ := s.length / s.speed

/-- `conveyor.Store._check_distance` (reads `self._env.now`). -/
def check_distance {α : Type} (s : Store α) (now : ℚ) : ℚ :=
  if s.distance = -1 then 0
  else
    match s.processing_queue.getLast? with
    | none => 0
    | some e => (s.distance - (now - e.startTime) * s.speed) / s.speed

/-- `conveyor.Store._check_capacity`: indexes `processing_queue[0]`, which
raises `IndexError` when the queue is empty (reachable when
`0 <= capacity <= len`, e.g. a conveyor constructed with capacity 0). -/
def check_capacity {α : Type} (s : Store α) (now : ℚ) : Except String ℚ :=
  if s.capacity = -1 then .ok 0
  else if (s.processing_queue.length : Int) < s.capacity then .ok 0
  else
    match s.processing_queue.head? with
    | none => .error "IndexError: list index out of range"
    | some e => .ok (get_duration s - (now - e.startTime))

/-- `conveyor.Store._capacity_available`. -/
def capacity_available {α : Type} (s : Store α) : Bool :=
  if s.capacity = -1 then true
  else decide ((s.processing_queue.length : Int) < s.capacity)

/-- `conveyor.Store._check_available`: python short-circuit `and` — the
capacity check (which can raise) only runs when the distance check
passed. -/
def check_available {α : Type} (s : Store α) (now : ℚ) : Except String Bool :=
  if check_distance s now ≤ 0 then
    match check_capacity s now with
    | .error m => .error m
    | .ok cc => .ok (decide (cc ≤ 0) && capacity_available s)
  else .ok false

/-- `conveyor.Store._do_put`: admit the item into `processing_queue` tagged
with the current time when available. -/
def do_put {α : Type} (now : ℚ) (s : Store α) (e : Put α) :
    Except String (Store α × Put α × Option Bool) :=
  match check_available s now with
  | .error m => .error m
  | .ok true =>
    .ok ({ s with processing_queue := s.processing_queue ++ [⟨e.item, now⟩] },
         { e with triggered := true, value := some true }, none)
  | .ok false => .ok (s, e, none)

/-- Python list indexing `l[i]` with negative-index support: `none` models
`IndexError`. -/
def pyIndex {α : Type} (l : List α) (i : Int) : Option α :=
  let j : Int := if i < 0 then i + l.length else i
  if 0 ≤ j then l.get? j.toNat else none

/-- `conveyor.Store._do_get`: `if self.processing_queue[event.item]` —
raises `IndexError` when the index is out of range; an in-range entry is a
non-empty dict, hence truthy, and the event succeeds with it (no
removal). -/
def do_get {α : Type} (s : Store α) (e : Get α) :
    Except String (Store α × Get α × Option Bool) :=
  match pyIndex s.processing_queue e.item with
  | none => .error "IndexError: list index out of range"
  | some entry =>
    if ProcEntry.truthy entry then
      .ok (s, { e with triggered := true, value := some entry }, none)
    else .ok (s, e, none)

/-- `conveyor.Store._do_peek`. -/
def do_peek {α : Type} (s : Store α) (e : Peek α) :
    Except String (Store α × Peek α × Option Bool) :=
  match s.items with
  | [] => .ok (s, e, none)
  | x :: _ => .ok (s, { e with triggered := true, value := some x }, none)

/-- `conveyor.Store._do_get_triggered`: succeeds once the conveyor can
accept an item. -/
def do_get_triggered {α : Type} (now : ℚ) (s : Store α) (e : GetTriggered) :
    Except String (Store α × GetTriggered × Option Bool) :=
  match check_available s now with
  | .error m => .error m
  | .ok true => .ok (s, { e with triggered := true, value := some true }, none)
  | .ok false => .ok (s, e, none)

/-- `conveyor.Store._do_pop`: pop the oldest ready item together with the
aligned processing entry; `processing_queue.pop(0)` raises on an empty
list. -/
def do_pop {α : Type} (s : Store α) (e : Pop α) :
    Except String (Store α × Pop α × Option Bool) :=
  match s.ready_queue with
  | [] => .ok (s, e, none)
  | x :: rest =>
    match s.processing_queue with
    | [] => .error "IndexError: pop from empty list"
    | _ :: prest =>
      .ok ({ s with ready_queue := rest, processing_queue := prest },
           { e with triggered := true, value := some x }, none)

/-- `conveyor.Store._do_push`: always appends to `ready_queue` and
succeeds. -/
def do_push {α : Type} (s : Store α) (e : Push α) :
    Except String (Store α × Push α × Option Bool) :=
  .ok ({ s with ready_queue := s.ready_queue ++ [e.item] },
       { e with triggered := true, value := some true }, none)

def Put.isTrig {α : Type} (e : Put α) : Bool := e.triggered

def Put.sameAs {α : Type} (a b : Put α) : Bool := a.rid == b.rid

def Get.isTrig {α : Type} (e : Get α) : Bool := e.triggered

def Get.sameAs {α : Type} (a b : Get α) : Bool := a.rid == b.rid

def Pop.isTrig {α : Type} (e : Pop α) : Bool := e.triggered

def Pop.sameAs {α : Type} (a b : Pop α) : Bool := a.rid == b.rid

def Push.isTrig {α : Type} (e : Push α) : Bool := e.triggered

def Push.sameAs {α : Type} (a b : Push α) : Bool := a.rid == b.rid

/-- `BaseResource._trigger_put` (inherited by `conveyor.Store`; the loop is
the one of `store.py`) run on the given queue at the given time. -/
def trigger_put_go {α : Type} (now : ℚ) (s : Store α) (q : List (Put α)) :
    Except String (Sim.TrigResult (Store α) (Put α)) :=
  Sim.triggerGo (do_put now) Put.isTrig Put.sameAs "Put queue invariant violated" s q

/-- `BaseResource._trigger_get` (inherited) run on the given queue. -/
def trigger_get_go {α : Type} (s : Store α) (q : List (Get α)) :
    Except String (Sim.TrigResult (Store α) (Get α)) :=
  Sim.triggerGo do_get Get.isTrig Get.sameAs "Get queue invariant violated" s q

/-- `conveyor.Store._trigger_pop` run on the given queue. -/
def trigger_pop_go {α : Type} (s : Store α) (q : List (Pop α)) :
    Except String (Sim.TrigResult (Store α) (Pop α)) :=
  Sim.triggerGo do_pop Pop.isTrig Pop.sameAs "Get queue invariant violated" s q

/-- `conveyor.Store._trigger_push` run on the given queue. -/
def trigger_push_go {α : Type} (s : Store α) (q : List (Push α)) :
    Except String (Sim.TrigResult (Store α) (Push α)) :=
  Sim.triggerGo do_push Push.isTrig Push.sameAs "Get queue invariant violated" s q

/-- `conveyor.Put.__init__` without environment bookkeeping: append the new
request to `put_queue` and run `_trigger_put`. -/
def putOp {α : Type} (now : ℚ) (s : Store α) (rid : Nat) (a : α) :
    Except String (Store α) :=
  match trigger_put_go now s (s.put_queue ++ [mkPut rid a]) with
  | .error m => .error m
  | .ok res => .ok { res.state with put_queue := res.queue }

/-- `conveyor.Pop.cancel`. -/
def Pop.cancel {α : Type} (s : Store α) (e : Pop α) : Except String (Store α) :=
  if e.triggered then .ok s
  else
    match Sim.removeFirst s.pop_queue (fun r => r.rid == e.rid) with
    | .error m => .error m
    | .ok q => .ok { s with pop_queue := q }

/-- `conveyor.Push.cancel`. -/
def Push.cancel {α : Type} (s : Store α) (e : Push α) : Except String (Store α) :=
  if e.triggered then .ok s
  else
    match Sim.removeFirst s.push_queue (fun r => r.rid == e.rid) with
    | .error m => .error m
    | .ok q => .ok { s with push_queue := q }

/-- The conveyor of `Store(env)` with all python defaults
(`capacity=-1, length=2, speed=1, acceleration=0, deceleration=0,
distance=-1`). -/
def conv0 : Store String := Store.init String (-1) 2 1 0 0 (-1)

/-- A conveyor with `length=10, speed=1, distance=10` and one item admitted
at t=0, for the spacing witness. -/
def convSpacing : Store String :=
  ⟨-1, 10, 1, 0, 0, 10, [], [⟨"p", 0⟩], [], [], [], [], [], [], []⟩

/-- An empty conveyor with `length=10, speed=1, distance=10`, for the
spacing counterexample. -/
def convA : Store String :=
  ⟨-1, 10, 1, 0, 0, 10, [], [], [], [], [], [], [], [], []⟩

end conveyor

namespace test_yield

/-- `WorkerStatus` enum of `test_yield.py`: `Free ↦ False`, `Busy ↦ True`
(the member value).  We store the boolean value directly: `true` means
busy. -/
abbrev WorkerMap := List (String × Bool)

/-- Python `dict.update({k: v})`: replace the value at `k` in place
(keeping insertion order), or append the pair when `k` is new. -/
def dictUpdate (m : WorkerMap) (k : String) (v : Bool) : WorkerMap :=
  if m.any (fun p => p.1 == k) then
    m.map (fun p => if p.1 == k then (p.1, v) else p)
  else m ++ [(k, v)]

/-- Python `m[k].value` for the worker map.  All repository call sites use
keys obtained from iterating the map, so the `KeyError` branch of python
indexing is unreachable; absent keys default to `false` here. -/
def mapGet (m : WorkerMap) (k : String) : Bool :=
  ((m.find? (fun p => p.1 == k)).map Prod.snd).getD false

/-- `test_yield.Base`, restricted to the fields the worker-pool claims
read.  `workerStatusField` is the `_workerStatus` attribute, which does not
exist (`none`) until the `workerStatus` property setter runs; the
configuration durations (`setupTime`, `processTime`, `recoveryTime`,
`recoveryStep`) are carried for fidelity but never touch the worker
pool. -/
structure Base where
  name : String
  uuid : String
  worker : Nat
  setupTime : Int
  processTime : Int
  recoveryTime : Int
  recoveryStep : String
  workerStatusField : Option WorkerMap
deriving Repr, DecidableEq

/-- The worker key `f"{self.name}-{self.uuid}-worker{i}"`. -/
def workerName (b : Base) (i : Nat) : String :=
  b.name ++ "-" ++ b.uuid ++ "-worker" ++ toString i

/-- The default all-free map rebuilt by the `workerStatus` getter on every
access while `_workerStatus` is unset. -/
def defaultWorkerStatus (b : Base) : WorkerMap :=
  (List.range b.worker).map (fun i => (workerName b i, false))

/-- `test_yield.Base.workerStatus` property getter:
`getattr(self, "_workerStatus", default)`. -/
def workerStatus (b : Base) : WorkerMap :=
  b.workerStatusField.getD (defaultWorkerStatus b)

/-- `test_yield.Base.checkWorkAvailable`: true when not every worker is
busy. -/
def checkWorkAvailable (b : Base) : Bool :=
  !((workerStatus b).all (fun p => p.2))

/-- `test_yield.Base.updateWorkerStatus`: `self.workerStatus.update(...)`
mutates the dict object the getter returned.  When `_workerStatus` is set
that is the stored dict, so the flip persists; when it is unset the getter
rebuilt a fresh default dict, the flip lands on that temporary and the
object is unchanged. -/
def updateWorkerStatus (b : Base) (w : String) : Base :=
  match b.workerStatusField with
  | some m => { b with workerStatusField := some (dictUpdate m w (!(mapGet m w))) }
  | none => b

/-- `test_yield.Base.getAvailableWorker`: scan the map in insertion order,
flip and return the first free worker, or return `None`. -/
def getAvailableWorker (b : Base) : Base × Option String :=
  match (workerStatus b).find? (fun p => !p.2) with
  | some p => (updateWorkerStatus b p.1, some p.1)
  | none => (b, none)

/-- Number of busy workers in a map. -/
def busyCount (m : WorkerMap) : Nat := m.countP (fun p => p.2)

/-- A two-worker node whose `_workerStatus` attribute was never set. -/
def b0 : Base := ⟨"A", "u", 2, 0, 80, 0, "afterLeave", none⟩

end test_yield

namespace store

/-- One operation of a put/get session against a Store, including the
trigger passes that the environment runs as event callbacks (processing a
put event calls `_trigger_get` and `_trigger_peek`; processing a get event
calls `_trigger_get_triggered`; processing a get_triggered event calls
`_trigger_put`). -/
inductive SOp (α : Type)
  | put (a : α)
  | get
  | trigPut
  | trigGet
  | trigPeek
  | trigGetTriggered
deriving Repr, DecidableEq

/-- A store together with its observation trace: `admitted` lists the items
appended to `items` by successful puts, in order; `returned` lists the
values delivered by successful gets, in order.  The store component evolves
exactly by the source operations; the two trace lists only record what the
fired requests of each pass contained. -/
structure TraceSt (α : Type) where
  store : Store α
  admitted : List α
  returned : List α
deriving Repr, DecidableEq

/-- One traced step.  The store update is the source operation
(`StorePut.__init__` / `StoreGet.__init__` / a trigger pass); the trace
lists extend by the payloads of the requests fired during the pass. -/
def stepT {α : Type} (t : TraceSt α) : SOp α → Except String (TraceSt α)
  | .put a =>
    match trigger_put_go t.store (t.store.put_queue ++ [mkPut 0 a]) with
    | .error m => .error m
    | .ok res =>
      .ok { store := { res.state with put_queue := res.queue },
            admitted := t.admitted ++ res.fired.map (fun r => r.item),
            returned := t.returned }
  | .get =>
    match trigger_get_go t.store (t.store.get_queue ++ [mkGet α 0]) with
    | .error m => .error m
    | .ok res =>
      .ok { store := { res.state with get_queue := res.queue },
            admitted := t.admitted,
            returned := t.returned ++ res.fired.filterMap (fun r => r.value) }
  | .trigPut =>
    match trigger_put_go t.store t.store.put_queue with
    | .error m => .error m
    | .ok res =>
      .ok { store := { res.state with put_queue := res.queue },
            admitted := t.admitted ++ res.fired.map (fun r => r.item),
            returned := t.returned }
  | .trigGet =>
    match trigger_get_go t.store t.store.get_queue with
    | .error m => .error m
    | .ok res =>
      .ok { store := { res.state with get_queue := res.queue },
            admitted := t.admitted,
            returned := t.returned ++ res.fired.filterMap (fun r => r.value) }
  | .trigPeek =>
    match trigger_peek_go t.store t.store.peek_queue with
    | .error m => .error m
    | .ok res =>
      .ok { store := { res.state with peek_queue := res.queue },
            admitted := t.admitted, returned := t.returned }
  | .trigGetTriggered =>
    match trigger_get_triggered_go t.store t.store.get_triggered_queue with
    | .error m => .error m
    | .ok res =>
      .ok { store := { res.state with get_triggered_queue := res.queue },
            admitted := t.admitted, returned := t.returned }

/-- Run a session against a freshly constructed `Store(env, capacity=C)`. -/
def runT {α : Type} (C : ℕ) (ops : List (SOp α)) : Except String (TraceSt α) :=
  match Store.init α (.fin (C : ℚ)) with
  | .error m => .error m
  | .ok s => ops.foldlM stepT ⟨s, [], []⟩

/-- The inductive invariant of a traced put/get session. -/
def Jinv {α : Type} (C : ℕ) (t : TraceSt α) : Prop :=
  t.store.capacity = .fin (C : ℚ) ∧
  t.store.items.length ≤ C ∧
  t.returned ++ t.store.items = t.admitted ∧
  (∀ r ∈ t.store.put_queue, r.triggered = false) ∧
  (∀ r ∈ t.store.get_queue, r.triggered = false) ∧
  (∀ r ∈ t.store.peek_queue, r.triggered = false) ∧
  (∀ r ∈ t.store.get_triggered_queue, r.triggered = false)

end store

namespace store

theorem trigger_put_go_cons {α : Type} (s : Store α) (r : Put α) (rest : List (Put α))
    (hr : r.triggered = false) :
    trigger_put_go s (r :: rest) =
      (if Cap.ltCap s.items.length s.capacity then
        .ok ⟨{ s with items := s.items ++ [r.item] }, rest,
             [{ r with triggered := true, value := some true }], 1⟩
      else .ok ⟨s, r :: rest, [], 1⟩) := by
  by_cases hc : Cap.ltCap s.items.length s.capacity = true
  · simp [trigger_put_go, Sim.triggerGo, do_put, hc, Put.isTrig, Put.sameAs]
  · simp [trigger_put_go, Sim.triggerGo, do_put, hc, Put.isTrig, Put.sameAs, hr]

theorem trigger_get_go_cons {α : Type} (s : Store α) (r : Get α) (rest : List (Get α))
    (hr : r.triggered = false) :
    trigger_get_go s (r :: rest) =
      (match s.items with
       | [] => .ok ⟨s, r :: rest, [], 1⟩
       | x :: xs =>
         .ok ⟨{ s with items := xs }, rest,
              [{ r with triggered := true, value := some x }], 1⟩) := by
  cases hi : s.items with
  | nil => simp [trigger_get_go, Sim.triggerGo, do_get, hi, Get.isTrig, Get.sameAs, hr]
  | cons x xs => simp [trigger_get_go, Sim.triggerGo, do_get, hi, Get.isTrig, Get.sameAs]

theorem trigger_peek_go_cons {α : Type} (s : Store α) (r : Peek α) (rest : List (Peek α))
    (hr : r.triggered = false) :
    trigger_peek_go s (r :: rest) =
      (match s.items with
       | [] => .ok ⟨s, r :: rest, [], 1⟩
       | x :: _ =>
         .ok ⟨s, rest, [{ r with triggered := true, value := some x }], 1⟩) := by
  cases hi : s.items with
  | nil => simp [trigger_peek_go, Sim.triggerGo, do_peek, hi, Peek.isTrig, Peek.sameAs, hr]
  | cons x xs => simp [trigger_peek_go, Sim.triggerGo, do_peek, hi, Peek.isTrig, Peek.sameAs]

theorem trigger_get_triggered_go_cons {α : Type} (s : Store α) (r : GetTriggered)
    (rest : List GetTriggered) (hr : r.triggered = false) :
    trigger_get_triggered_go s (r :: rest) =
      (match s.items with
       | [] => .ok ⟨s, rest, [{ r with triggered := true, value := some true }], 1⟩
       | _ :: _ => .ok ⟨s, r :: rest, [], 1⟩) := by
  cases hi : s.items with
  | nil =>
    simp [trigger_get_triggered_go, Sim.triggerGo, do_get_triggered, hi,
      GetTriggered.isTrig, GetTriggered.sameAs]
  | cons x xs =>
    simp [trigger_get_triggered_go, Sim.triggerGo, do_get_triggered, hi,
      GetTriggered.isTrig, GetTriggered.sameAs, hr]

end store

namespace store

theorem put_pass_props {α : Type} (C : ℕ) (s : Store α) (q : List (Put α))
    (res : Sim.TrigResult (Store α) (Put α))
    (hcap : s.capacity = .fin (C : ℚ)) (hlen : s.items.length ≤ C)
    (hq : ∀ r ∈ q, r.triggered = false)
    (h : trigger_put_go s q = .ok res) :
    res.state.capacity = s.capacity ∧
    res.state.get_queue = s.get_queue ∧
    res.state.peek_queue = s.peek_queue ∧
    res.state.get_triggered_queue = s.get_triggered_queue ∧
    res.state.items = s.items ++ res.fired.map (fun r => r.item) ∧
    res.state.items.length ≤ C ∧
    (∀ r ∈ res.queue, r.triggered = false) := by
  cases q with
  | nil =>
    simp only [trigger_put_go, Sim.triggerGo] at h
    cases h
    simp [hlen]
  | cons r rest =>
    have hr : r.triggered = false := hq r (List.mem_cons_self _ _)
    rw [trigger_put_go_cons s r rest hr] at h
    by_cases hc : Cap.ltCap s.items.length s.capacity = true
    · rw [if_pos hc] at h
      cases h
      have hlt : s.items.length < C := by
        rw [hcap] at hc
        simpa [Cap.ltCap] using hc
      refine ⟨rfl, rfl, rfl, rfl, by simp, ?_, ?_⟩
      · simp only [List.map_cons, List.map_nil, List.length_append, List.length_cons]
        simpa using hlt
      · exact fun x hx => hq x (List.mem_cons_of_mem _ hx)
    · rw [if_neg hc] at h
      cases h
      exact ⟨rfl, rfl, rfl, rfl, by simp, hlen, hq⟩

theorem get_pass_props {α : Type} (s : Store α) (q : List (Get α))
    (res : Sim.TrigResult (Store α) (Get α))
    (hq : ∀ r ∈ q, r.triggered = false)
    (h : trigger_get_go s q = .ok res) :
    res.state.capacity = s.capacity ∧
    res.state.put_queue = s.put_queue ∧
    res.state.peek_queue = s.peek_queue ∧
    res.state.get_triggered_queue = s.get_triggered_queue ∧
    s.items = res.fired.filterMap (fun r => r.value) ++ res.state.items ∧
    res.state.items.length ≤ s.items.length ∧
    (∀ r ∈ res.queue, r.triggered = false) := by
  cases q with
  | nil =>
    simp only [trigger_get_go, Sim.triggerGo] at h
    cases h
    simp
  | cons r rest =>
    have hr : r.triggered = false := hq r (List.mem_cons_self _ _)
    rw [trigger_get_go_cons s r rest hr] at h
    cases hi : s.items with
    | nil =>
      rw [hi] at h
      cases h
      exact ⟨rfl, rfl, rfl, rfl, by simp [hi], by simp [hi], hq⟩
    | cons x xs =>
      rw [hi] at h
      cases h
      refine ⟨rfl, rfl, rfl, rfl, by simp [hi], by simp [hi], ?_⟩
      exact fun y hy => hq y (List.mem_cons_of_mem _ hy)

theorem peek_pass_props {α : Type} (s : Store α) (q : List (Peek α))
    (res : Sim.TrigResult (Store α) (Peek α))
    (hq : ∀ r ∈ q, r.triggered = false)
    (h : trigger_peek_go s q = .ok res) :
    res.state = s ∧ (∀ r ∈ res.queue, r.triggered = false) := by
  cases q with
  | nil =>
    simp only [trigger_peek_go, Sim.triggerGo] at h
    cases h
    simp
  | cons r rest =>
    have hr : r.triggered = false := hq r (List.mem_cons_self _ _)
    rw [trigger_peek_go_cons s r rest hr] at h
    cases hi : s.items with
    | nil =>
      rw [hi] at h
      cases h
      exact ⟨rfl, hq⟩
    | cons x xs =>
      rw [hi] at h
      cases h
      exact ⟨rfl, fun y hy => hq y (List.mem_cons_of_mem _ hy)⟩

theorem gt_pass_props {α : Type} (s : Store α) (q : List GetTriggered)
    (res : Sim.TrigResult (Store α) GetTriggered)
    (hq : ∀ r ∈ q, r.triggered = false)
    (h : trigger_get_triggered_go s q = .ok res) :
    res.state = s ∧ (∀ r ∈ res.queue, r.triggered = false) := by
  cases q with
  | nil =>
    simp only [trigger_get_triggered_go, Sim.triggerGo] at h
    cases h
    simp
  | cons r rest =>
    have hr : r.triggered = false := hq r (List.mem_cons_self _ _)
    rw [trigger_get_triggered_go_cons s r rest hr] at h
    cases hi : s.items with
    | nil =>
      rw [hi] at h
      cases h
      exact ⟨rfl, fun y hy => hq y (List.mem_cons_of_mem _ hy)⟩
    | cons x xs =>
      rw [hi] at h
      cases h
      exact ⟨rfl, hq⟩

theorem stepT_inv {α : Type} (C : ℕ) (t t1 : TraceSt α) (op : SOp α)
    (hJ : Jinv C t) (h : stepT t op = .ok t1) : Jinv C t1 := by
  obtain ⟨hcap, hlen, htrace, hput, hget, hpeek, hgt⟩ := hJ
  cases op with
  | put a =>
    simp only [stepT] at h
    cases hres : trigger_put_go t.store (t.store.put_queue ++ [mkPut 0 a]) with
    | error m => rw [hres] at h; cases h
    | ok res =>
      rw [hres] at h
      cases h
      have hq : ∀ r ∈ t.store.put_queue ++ [mkPut 0 a], r.triggered = false := by
        intro r hr
        rcases List.mem_append.mp hr with h1 | h1
        · exact hput r h1
        · simp only [List.mem_singleton] at h1
          subst h1; rfl
      have hp := put_pass_props C t.store _ res hcap hlen hq hres
      refine ⟨by simp [hp.1, hcap], by simpa using hp.2.2.2.2.2.1, ?_, ?_, ?_, ?_, ?_⟩
      · simp only
        rw [hp.2.2.2.2.1, ← List.append_assoc, htrace]
      · exact hp.2.2.2.2.2.2
      · simpa [hp.2.1] using hget
      · simpa [hp.2.2.1] using hpeek
      · simpa [hp.2.2.2.1] using hgt
  | get =>
    simp only [stepT] at h
    cases hres : trigger_get_go t.store (t.store.get_queue ++ [mkGet α 0]) with
    | error m => rw [hres] at h; cases h
    | ok res =>
      rw [hres] at h
      cases h
      have hq : ∀ r ∈ t.store.get_queue ++ [mkGet α 0], r.triggered = false := by
        intro r hr
        rcases List.mem_append.mp hr with h1 | h1
        · exact hget r h1
        · simp only [List.mem_singleton] at h1
          subst h1; rfl
      have hp := get_pass_props t.store _ res hq hres
      refine ⟨by simp [hp.1, hcap], ?_, ?_, ?_, ?_, ?_, ?_⟩
      · exact le_trans (by simpa using hp.2.2.2.2.2.1) hlen
      · simp only
        rw [List.append_assoc, ← hp.2.2.2.2.1, htrace]
      · simpa [hp.2.1] using hput
      · exact hp.2.2.2.2.2.2
      · simpa [hp.2.2.1] using hpeek
      · simpa [hp.2.2.2.1] using hgt
  | trigPut =>
    simp only [stepT] at h
    cases hres : trigger_put_go t.store t.store.put_queue with
    | error m => rw [hres] at h; cases h
    | ok res =>
      rw [hres] at h
      cases h
      have hp := put_pass_props C t.store _ res hcap hlen hput hres
      refine ⟨by simp [hp.1, hcap], by simpa using hp.2.2.2.2.2.1, ?_, ?_, ?_, ?_, ?_⟩
      · simp only
        rw [hp.2.2.2.2.1, ← List.append_assoc, htrace]
      · exact hp.2.2.2.2.2.2
      · simpa [hp.2.1] using hget
      · simpa [hp.2.2.1] using hpeek
      · simpa [hp.2.2.2.1] using hgt
  | trigGet =>
    simp only [stepT] at h
    cases hres : trigger_get_go t.store t.store.get_queue with
    | error m => rw [hres] at h; cases h
    | ok res =>
      rw [hres] at h
      cases h
      have hp := get_pass_props t.store _ res hget hres
      refine ⟨by simp [hp.1, hcap], ?_, ?_, ?_, ?_, ?_, ?_⟩
      · exact le_trans (by simpa using hp.2.2.2.2.2.1) hlen
      · simp only
        rw [List.append_assoc, ← hp.2.2.2.2.1, htrace]
      · simpa [hp.2.1] using hput
      · exact hp.2.2.2.2.2.2
      · simpa [hp.2.2.1] using hpeek
      · simpa [hp.2.2.2.1] using hgt
  | trigPeek =>
    simp only [stepT] at h
    cases hres : trigger_peek_go t.store t.store.peek_queue with
    | error m => rw [hres] at h; cases h
    | ok res =>
      rw [hres] at h
      cases h
      have hp := peek_pass_props t.store _ res hpeek hres
      refine ⟨by simp [hp.1, hcap], by simp [hp.1, hlen], by simp [hp.1, htrace], ?_, ?_, ?_, ?_⟩
      · simpa [hp.1] using hput
      · simpa [hp.1] using hget
      · exact hp.2
      · simpa [hp.1] using hgt
  | trigGetTriggered =>
    simp only [stepT] at h
    cases hres : trigger_get_triggered_go t.store t.store.get_triggered_queue with
    | error m => rw [hres] at h; cases h
    | ok res =>
      rw [hres] at h
      cases h
      have hp := gt_pass_props t.store _ res hgt hres
      refine ⟨by simp [hp.1, hcap], by simp [hp.1, hlen], by simp [hp.1, htrace], ?_, ?_, ?_, ?_⟩
      · simpa [hp.1] using hput
      · simpa [hp.1] using hget
      · simpa [hp.1] using hpeek
      · exact hp.2

theorem foldlM_inv {α : Type} (C : ℕ) :
    ∀ (ops : List (SOp α)) (t t1 : TraceSt α),
      Jinv C t → List.foldlM stepT t ops = .ok t1 → Jinv C t1 := by
  intro ops
  induction ops with
  | nil =>
    intro t t1 hJ h
    simp only [List.foldlM_nil] at h
    cases h
    exact hJ
  | cons op rest ih =>
    intro t t1 hJ h
    rw [List.foldlM_cons] at h
    cases hst : stepT t op with
    | error m => rw [hst] at h; cases h
    | ok t2 =>
      rw [hst] at h
      exact ih t2 t1 (stepT_inv C t t2 op hJ hst) h

end store

namespace Sim

theorem triggerGo_untriggered {σ ρ : Type}
    (doK : σ → ρ → Except String (σ × ρ × Option Bool))
    (isTrig : ρ → Bool) (beq : ρ → ρ → Bool) (msg : String) :
    ∀ (s : σ) (q : List ρ) (res : TrigResult σ ρ),
      (∀ r ∈ q, isTrig r = false) →
      triggerGo doK isTrig beq msg s q = .ok res →
      (∀ r ∈ res.queue, isTrig r = false) ∧
      res.queue.length + res.fired.length = q.length ∧
      (∀ r ∈ res.fired, isTrig r = true) := by
  intro s q
  induction q generalizing s with
  | nil =>
    intro res _ h
    simp only [triggerGo] at h
    cases h
    simp
  | cons r rest ih =>
    intro res hq h
    simp only [triggerGo] at h
    cases hdo : doK s r with
    | error m => rw [hdo] at h; cases h
    | ok out =>
      obtain ⟨s1, r1, proceed⟩ := out
      rw [hdo] at h
      simp only at h
      by_cases htr : isTrig r1 = true
      · rw [if_pos htr] at h
        by_cases hb : beq r1 r1 = true
        · rw [if_pos hb] at h
          by_cases hp : proceed = some true
          · rw [if_pos hp] at h
            cases hrec : triggerGo doK isTrig beq msg s1 rest with
            | error m => rw [hrec] at h; cases h
            | ok res1 =>
              rw [hrec] at h
              cases h
              have hmain := ih s1 res1 (fun x hx => hq x (List.mem_cons_of_mem _ hx)) hrec
              refine ⟨hmain.1, ?_, ?_⟩
              · simp only [List.length_cons]
                omega
              · intro x hx
                rcases List.mem_cons.mp hx with h1 | h1
                · subst h1; exact htr
                · exact hmain.2.2 x h1
          · rw [if_neg hp] at h
            cases h
            refine ⟨fun x hx => hq x (List.mem_cons_of_mem _ hx), by simp, ?_⟩
            intro x hx
            simp only [List.mem_singleton] at hx
            subst hx; exact htr
        · rw [if_neg hb] at h; cases h
      · rw [if_neg htr] at h
        by_cases hp : proceed = some true
        · rw [if_pos hp] at h
          cases hrec : triggerGo doK isTrig beq msg s1 rest with
          | error m => rw [hrec] at h; cases h
          | ok res1 =>
            rw [hrec] at h
            cases h
            have hmain := ih s1 res1 (fun x hx => hq x (List.mem_cons_of_mem _ hx)) hrec
            refine ⟨?_, ?_, hmain.2.2⟩
            · intro x hx
              rcases List.mem_cons.mp hx with h1 | h1
              · subst h1; simpa using htr
              · exact hmain.1 x h1
            · simp only [List.length_cons]
              omega
        · rw [if_neg hp] at h
          cases h
          refine ⟨?_, by simp, by simp⟩
          intro x hx
          rcases List.mem_cons.mp hx with h1 | h1
          · subst h1; simpa using htr
          · exact hq x (List.mem_cons_of_mem _ h1)

theorem triggerGo_examined {σ ρ : Type}
    (doK : σ → ρ → Except String (σ × ρ × Option Bool))
    (isTrig : ρ → Bool) (beq : ρ → ρ → Bool) (msg : String)
    (hnone : ∀ s r out, doK s r = .ok out → out.2.2 = none) :
    ∀ (s : σ) (q : List ρ) (res : TrigResult σ ρ),
      triggerGo doK isTrig beq msg s q = .ok res →
      res.examined = min 1 q.length := by
  intro s q res h
  cases q with
  | nil =>
    simp only [triggerGo] at h
    cases h
    simp
  | cons r rest =>
    simp only [triggerGo] at h
    cases hdo : doK s r with
    | error m => rw [hdo] at h; cases h
    | ok out =>
      obtain ⟨s1, r1, proceed⟩ := out
      have hpn : proceed = none := hnone s r (s1, r1, proceed) hdo
      subst hpn
      rw [hdo] at h
      simp only at h
      by_cases htr : isTrig r1 = true
      · rw [if_pos htr] at h
        by_cases hb : beq r1 r1 = true
        · rw [if_pos hb] at h
          rw [if_neg (by simp)] at h
          cases h
          simp
        · rw [if_neg hb] at h; cases h
      · rw [if_neg htr] at h
        rw [if_neg (by simp)] at h
        cases h
        simp

end Sim

namespace Sim

theorem removeFirst_not_found {ρ : Type} (same : ρ → Bool) :
    ∀ q : List ρ, (∀ x ∈ q, same x = false) →
      removeFirst q same = .error "list.remove(x): x not in list" := by
  intro q
  induction q with
  | nil => intro _; rfl
  | cons x rest ih =>
    intro h
    have hx : same x = false := h x (List.mem_cons_self _ _)
    have hrec := ih (fun y hy => h y (List.mem_cons_of_mem _ hy))
    simp [removeFirst, hx, hrec]

end Sim

namespace store

theorem do_put_proceed_none {α : Type} :
    ∀ (s : Store α) (r : Put α) out, do_put s r = .ok out → out.2.2 = none := by
  intro s r out h
  unfold do_put at h
  split at h <;> (cases h; rfl)

theorem do_get_proceed_none {α : Type} :
    ∀ (s : Store α) (r : Get α) out, do_get s r = .ok out → out.2.2 = none := by
  intro s r out h
  unfold do_get at h
  split at h <;> (cases h; rfl)

theorem do_peek_proceed_none {α : Type} :
    ∀ (s : Store α) (r : Peek α) out, do_peek s r = .ok out → out.2.2 = none := by
  intro s r out h
  unfold do_peek at h
  split at h <;> (cases h; rfl)

theorem do_get_triggered_proceed_none {α : Type} :
    ∀ (s : Store α) (r : GetTriggered) out, do_get_triggered s r = .ok out → out.2.2 = none := by
  intro s r out h
  unfold do_get_triggered at h
  split at h <;> (cases h; rfl)

end store

namespace conveyor

theorem conv_do_put_proceed_none {α : Type} :
    ∀ (now : ℚ) (s : Store α) (r : Put α) out, do_put now s r = .ok out → out.2.2 = none := by
  intro now s r out h
  unfold do_put at h
  split at h
  · cases h
  · cases h; rfl
  · cases h; rfl

theorem conv_do_get_proceed_none {α : Type} :
    ∀ (s : Store α) (r : Get α) out, do_get s r = .ok out → out.2.2 = none := by
  intro s r out h
  unfold do_get at h
  split at h
  · cases h
  · split at h <;> (cases h; rfl)

theorem do_pop_proceed_none {α : Type} :
    ∀ (s : Store α) (r : Pop α) out, do_pop s r = .ok out → out.2.2 = none := by
  intro s r out h
  unfold do_pop at h
  split at h
  · cases h; rfl
  · split at h
    · cases h
    · cases h; rfl

theorem do_push_proceed_none {α : Type} :
    ∀ (s : Store α) (r : Push α) out, do_push s r = .ok out → out.2.2 = none := by
  intro s r out h
  cases h; rfl

end conveyor

/-- C1: counterexample.  The claim asserts that on a capacity-1 Store the
`get()` at t=5 re-triggers and completes the pending `put("b")`.  In the
source a Get event's only callback is `_trigger_get_triggered`
(`store.py` line 98), so running the whole scenario — both puts at t=0,
the environment processing the scheduled put event, `get()` at t=5, the
environment processing the scheduled get event — ends with `put("b")`
still untriggered in the put queue and no scheduled event left that could
ever complete it. -/
theorem c1_pending_put_not_unblocked_counterexample :
    store.scenario =
      .ok ([{ rid := 2, triggered := true, value := some "a" }],
           { capacity := .fin 1, items := [],
             put_queue := [{ rid := 1, item := "b", triggered := false, value := none }],
             get_queue := [], peek_queue := [], get_triggered_queue := [] },
           []) := by decide

/-- C1 (amended): a successful `get` removes and returns the head item, but
processing the get event re-triggers pending get_triggered requests, not
puts (puts are re-triggered only when a get_triggered event is processed);
in the capacity-1 scenario the `get()` at t=5 returns "a" and empties the
store, while the pending `put("b")` remains untriggered in the put queue
and never completes. -/
theorem c1_get_retriggers_get_triggered_only :
    store.getCallbacks = [store.Cb.trigGetTriggered] ∧
    store.getTriggeredCallbacks = [store.Cb.trigPut] ∧
    ∃ st : store.Store String,
      store.scenario = .ok ([{ rid := 2, triggered := true, value := some "a" }], st, []) ∧
      st.items = [] ∧
      st.put_queue = [{ rid := 1, item := "b", triggered := false, value := none }] := by
  refine ⟨rfl, rfl,
    ({ capacity := .fin 1, items := [],
       put_queue := [{ rid := 1, item := "b", triggered := false, value := none }],
       get_queue := [], peek_queue := [], get_triggered_queue := [] } : store.Store String),
    by decide, rfl, rfl⟩

/-- C2: counterexample.  With two Push requests queued on a conveyor, one
invocation of `_trigger_push` examines only the first (which triggers and
is removed) and then stops — `_do_push` returns `None`, which the loop
reads as "stop" — leaving the second request unexamined and untriggered
even though `_do_push` would trigger it immediately.  This refutes "one
invocation of trigger_K examines every request in the K-queue". -/
theorem c2_scan_stops_after_head_counterexample :
    conveyor.trigger_push_go conveyor.conv0
        [conveyor.mkPush 0 "x", conveyor.mkPush 1 "y"] =
      .ok ⟨{ conveyor.conv0 with ready_queue := ["x"] },
           [conveyor.mkPush 1 "y"],
           [{ rid := 0, item := "x", triggered := true, value := some true }], 1⟩ ∧
    (conveyor.mkPush (α := String) 1 "y").triggered = false ∧
    conveyor.do_push { conveyor.conv0 with ready_queue := ["x"] }
        (conveyor.mkPush 1 "y") =
      .ok ({ conveyor.conv0 with ready_queue := ["x", "y"] },
           { rid := 1, item := "y", triggered := true, value := some true }, none) := by
  refine ⟨by decide, rfl, by decide⟩

/-- C2 (amended): every `_do_K` of the repository unconditionally returns
`None` and each trigger loop breaks as soon as `do_K` returns a falsy
value, so one invocation of any trigger routine examines exactly
`min 1 len(queue)` requests — the head of the queue and nothing further —
whether or not that head triggered. -/
theorem c2_trigger_examines_head_only :
    (∀ (s : store.Store String) q res, store.trigger_put_go s q = .ok res →
      res.examined = min 1 q.length) ∧
    (∀ (s : store.Store String) q res, store.trigger_get_go s q = .ok res →
      res.examined = min 1 q.length) ∧
    (∀ (s : store.Store String) q res, store.trigger_peek_go s q = .ok res →
      res.examined = min 1 q.length) ∧
    (∀ (s : store.Store String) q res, store.trigger_get_triggered_go s q = .ok res →
      res.examined = min 1 q.length) ∧
    (∀ (now : ℚ) (s : conveyor.Store String) q res, conveyor.trigger_put_go now s q = .ok res →
      res.examined = min 1 q.length) ∧
    (∀ (s : conveyor.Store String) q res, conveyor.trigger_get_go s q = .ok res →
      res.examined = min 1 q.length) ∧
    (∀ (s : conveyor.Store String) q res, conveyor.trigger_pop_go s q = .ok res →
      res.examined = min 1 q.length) ∧
    (∀ (s : conveyor.Store String) q res, conveyor.trigger_push_go s q = .ok res →
      res.examined = min 1 q.length) :=
  ⟨fun s q res h => Sim.triggerGo_examined _ _ _ _ store.do_put_proceed_none s q res h,
   fun s q res h => Sim.triggerGo_examined _ _ _ _ store.do_get_proceed_none s q res h,
   fun s q res h => Sim.triggerGo_examined _ _ _ _ store.do_peek_proceed_none s q res h,
   fun s q res h => Sim.triggerGo_examined _ _ _ _ store.do_get_triggered_proceed_none s q res h,
   fun now s q res h =>
     Sim.triggerGo_examined _ _ _ _ (conveyor.conv_do_put_proceed_none now) s q res h,
   fun s q res h => Sim.triggerGo_examined _ _ _ _ conveyor.conv_do_get_proceed_none s q res h,
   fun s q res h => Sim.triggerGo_examined _ _ _ _ conveyor.do_pop_proceed_none s q res h,
   fun s q res h => Sim.triggerGo_examined _ _ _ _ conveyor.do_push_proceed_none s q res h⟩

/-- Witness for the amended C2 at concrete inputs: a put pass and a push
pass on singleton queues each examine exactly one request. -/
theorem c2_trigger_examines_head_only_witness :
    (Sim.TrigResult.examined
        (⟨{ store.store1 with items := ["a"] }, [],
          [{ rid := 0, item := "a", triggered := true, value := some true }], 1⟩ :
          Sim.TrigResult (store.Store String) (store.Put String)) =
      min 1 [store.mkPut (α := String) 0 "a"].length) ∧
    (Sim.TrigResult.examined
        (⟨{ conveyor.conv0 with ready_queue := ["x"] },
          [], [{ rid := 0, item := "x", triggered := true, value := some true }], 1⟩ :
          Sim.TrigResult (conveyor.Store String) (conveyor.Push String)) =
      min 1 [conveyor.mkPush (α := String) 0 "x"].length) :=
  ⟨c2_trigger_examines_head_only.1 store.store1 [store.mkPut 0 "a"] _ (by decide),
   c2_trigger_examines_head_only.2.2.2.2.2.2.2
     conveyor.conv0 [conveyor.mkPush 0 "x"] _ (by decide)⟩

/-- C3: counterexample.  Cancelling a pending put removes it from the put
queue; calling `cancel()` a second time is not a no-op: `triggered` is
still false, so `cancel` calls `put_queue.remove(self)` again, which
raises `ValueError` because the request is no longer in the list. -/
theorem c3_double_cancel_raises_counterexample :
    store.Put.cancel store.store1p (store.mkPut 0 "x") = .ok store.store1 ∧
    store.Put.cancel store.store1 (store.mkPut 0 "x") =
      .error "list.remove(x): x not in list" := ⟨by decide, by decide⟩

/-- C3 (amended): for every request kind, `cancel()` on an already
triggered request is a no-op; but `cancel()` on an untriggered request
that is no longer in its queue (e.g. after a first `cancel()` already
removed it) raises `ValueError` from `list.remove`, it is not a no-op. -/
theorem c3_cancel_semantics :
    (∀ (s : store.Store String) (e : store.Put String), e.triggered = true →
      store.Put.cancel s e = .ok s) ∧
    (∀ (s : store.Store String) (e : store.Put String), e.triggered = false →
      (∀ r ∈ s.put_queue, (r.rid == e.rid) = false) →
      store.Put.cancel s e = .error "list.remove(x): x not in list") ∧
    (∀ (s : store.Store String) (e : store.Get String), e.triggered = true →
      store.Get.cancel s e = .ok s) ∧
    (∀ (s : store.Store String) (e : store.Get String), e.triggered = false →
      (∀ r ∈ s.get_queue, (r.rid == e.rid) = false) →
      store.Get.cancel s e = .error "list.remove(x): x not in list") ∧
    (∀ (s : store.Store String) (e : store.Peek String), e.triggered = true →
      store.Peek.cancel s e = .ok s) ∧
    (∀ (s : store.Store String) (e : store.Peek String), e.triggered = false →
      (∀ r ∈ s.peek_queue, (r.rid == e.rid) = false) →
      store.Peek.cancel s e = .error "list.remove(x): x not in list") ∧
    (∀ (s : store.Store String) (e : store.GetTriggered), e.triggered = true →
      store.GetTriggered.cancel s e = .ok s) ∧
    (∀ (s : store.Store String) (e : store.GetTriggered), e.triggered = false →
      (∀ r ∈ s.get_triggered_queue, (r.rid == e.rid) = false) →
      store.GetTriggered.cancel s e = .error "list.remove(x): x not in list") ∧
    (∀ (s : conveyor.Store String) (e : conveyor.Pop String), e.triggered = true →
      conveyor.Pop.cancel s e = .ok s) ∧
    (∀ (s : conveyor.Store String) (e : conveyor.Pop String), e.triggered = false →
      (∀ r ∈ s.pop_queue, (r.rid == e.rid) = false) →
      conveyor.Pop.cancel s e = .error "list.remove(x): x not in list") ∧
    (∀ (s : conveyor.Store String) (e : conveyor.Push String), e.triggered = true →
      conveyor.Push.cancel s e = .ok s) ∧
    (∀ (s : conveyor.Store String) (e : conveyor.Push String), e.triggered = false →
      (∀ r ∈ s.push_queue, (r.rid == e.rid) = false) →
      conveyor.Push.cancel s e = .error "list.remove(x): x not in list") := by
  refine ⟨?_, ?_, ?_, ?_, ?_, ?_, ?_, ?_, ?_, ?_, ?_, ?_⟩
  · intro s e h; simp [store.Put.cancel, h]
  · intro s e h hq
    simp [store.Put.cancel, h, Sim.removeFirst_not_found _ _ hq]
  · intro s e h; simp [store.Get.cancel, h]
  · intro s e h hq
    simp [store.Get.cancel, h, Sim.removeFirst_not_found _ _ hq]
  · intro s e h; simp [store.Peek.cancel, h]
  · intro s e h hq
    simp [store.Peek.cancel, h, Sim.removeFirst_not_found _ _ hq]
  · intro s e h; simp [store.GetTriggered.cancel, h]
  · intro s e h hq
    simp [store.GetTriggered.cancel, h, Sim.removeFirst_not_found _ _ hq]
  · intro s e h; simp [conveyor.Pop.cancel, h]
  · intro s e h hq
    simp [conveyor.Pop.cancel, h, Sim.removeFirst_not_found _ _ hq]
  · intro s e h; simp [conveyor.Push.cancel, h]
  · intro s e h hq
    simp [conveyor.Push.cancel, h, Sim.removeFirst_not_found _ _ hq]

/-- Witness for the amended C3 at concrete inputs: a triggered request of
each kind cancels as a no-op; an untriggered request absent from its
(empty) queue raises. -/
theorem c3_cancel_semantics_witness :
    (store.Put.cancel store.store1 ⟨0, "x", true, some true⟩ = .ok store.store1) ∧
    (store.Put.cancel store.store1 (store.mkPut 1 "x") =
      .error "list.remove(x): x not in list") ∧
    (store.Get.cancel store.store1 ⟨0, true, some "x"⟩ = .ok store.store1) ∧
    (store.Get.cancel store.store1 (store.mkGet String 1) =
      .error "list.remove(x): x not in list") ∧
    (store.Peek.cancel store.store1 ⟨0, true, some "x"⟩ = .ok store.store1) ∧
    (store.Peek.cancel store.store1 (store.mkPeek String 1) =
      .error "list.remove(x): x not in list") ∧
    (store.GetTriggered.cancel store.store1 ⟨0, true, some true⟩ = .ok store.store1) ∧
    (store.GetTriggered.cancel store.store1 (store.mkGetTriggered 1) =
      .error "list.remove(x): x not in list") ∧
    (conveyor.Pop.cancel conveyor.conv0 ⟨0, true, some "x"⟩ = .ok conveyor.conv0) ∧
    (conveyor.Pop.cancel conveyor.conv0 (conveyor.mkPop String 1) =
      .error "list.remove(x): x not in list") ∧
    (conveyor.Push.cancel conveyor.conv0 ⟨0, "x", true, some true⟩ = .ok conveyor.conv0) ∧
    (conveyor.Push.cancel conveyor.conv0 (conveyor.mkPush 1 "x") =
      .error "list.remove(x): x not in list") :=
  ⟨c3_cancel_semantics.1 store.store1 _ rfl,
   c3_cancel_semantics.2.1 store.store1 _ rfl (by decide),
   c3_cancel_semantics.2.2.1 store.store1 _ rfl,
   c3_cancel_semantics.2.2.2.1 store.store1 _ rfl (by decide),
   c3_cancel_semantics.2.2.2.2.1 store.store1 _ rfl,
   c3_cancel_semantics.2.2.2.2.2.1 store.store1 _ rfl (by decide),
   c3_cancel_semantics.2.2.2.2.2.2.1 store.store1 _ rfl,
   c3_cancel_semantics.2.2.2.2.2.2.2.1 store.store1 _ rfl (by decide),
   c3_cancel_semantics.2.2.2.2.2.2.2.2.1 conveyor.conv0 _ rfl,
   c3_cancel_semantics.2.2.2.2.2.2.2.2.2.1 conveyor.conv0 _ rfl (by decide),
   c3_cancel_semantics.2.2.2.2.2.2.2.2.2.2.1 conveyor.conv0 _ rfl,
   c3_cancel_semantics.2.2.2.2.2.2.2.2.2.2.2 conveyor.conv0 _ rfl (by decide)⟩

/-- C8: counterexample.  `conveyor.Store.__init__` performs no capacity
validation: constructing a conveyor with the non-positive bounded capacity
0 succeeds and stores the value unchanged, instead of raising a
construction-time error. -/
theorem c8_conveyor_accepts_zero_capacity_counterexample :
    conveyor.Store.init String 0 2 1 0 0 (-1) =
      ⟨0, 2, 1, 0, 0, -1, [], [], [], [], [], [], [], [], []⟩ := rfl

/-- C8 (amended): `store.Store.__init__` raises `ValueError` exactly when
`capacity <= 0`; `conveyor.Store.__init__` validates nothing — every
capacity value, including non-positive bounded ones, is accepted and
stored unchanged (`-1` being the unbounded sentinel). -/
theorem c8_capacity_validation :
    (∀ cap : store.Cap, store.Cap.le0 cap = true →
      store.Store.init String cap = .error "\"capacity\" must be > 0.") ∧
    (∀ cap : store.Cap, store.Cap.le0 cap = false →
      store.Store.init String cap = .ok ⟨cap, [], [], [], [], []⟩) ∧
    (∀ (k : Int) (l sp a d di : ℚ),
      conveyor.Store.init String k l sp a d di =
        ⟨k, l, sp, a, d, di, [], [], [], [], [], [], [], [], []⟩) := by
  refine ⟨?_, ?_, ?_⟩
  · intro cap h; simp [store.Store.init, h]
  · intro cap h; simp [store.Store.init, h]
  · intro k l sp a d di; rfl

/-- Witness for the amended C8 at concrete inputs: capacity 0 is rejected
by the Store, capacity 1 accepted, and the Conveyor accepts capacity 0. -/
theorem c8_capacity_validation_witness :
    store.Cap.le0 (.fin 0) = true ∧
    store.Store.init String (.fin 0) = .error "\"capacity\" must be > 0." ∧
    store.Cap.le0 (.fin 1) = false ∧
    store.Store.init String (.fin 1) = .ok ⟨.fin 1, [], [], [], [], []⟩ ∧
    conveyor.Store.init String 0 2 1 0 0 (-1) =
      ⟨0, 2, 1, 0, 0, -1, [], [], [], [], [], [], [], [], []⟩ :=
  ⟨by decide, c8_capacity_validation.1 (.fin 0) (by decide), by decide,
   c8_capacity_validation.2.1 (.fin 1) (by decide),
   c8_capacity_validation.2.2 0 2 1 0 0 (-1)⟩

/-- C9: counterexample.  A conveyor `get(0)` with an empty
`processing_queue` — an absent entry — does not leave the request pending:
`processing_queue[0]` raises `IndexError`. -/
theorem c9_absent_index_raises_counterexample :
    conveyor.do_get conveyor.conv0 (conveyor.mkGet String 0 0) =
      .error "IndexError: list index out of range" := by decide

/-- C9 (amended): conveyor `get(index)` retrieves without removing: an
in-range processing-slot entry (a non-empty dict, hence truthy) triggers
the request immediately with that entry and leaves the state unchanged; an
out-of-range index raises `IndexError` instead of leaving the request
pending. -/
theorem c9_conveyor_get_semantics :
    (∀ (s : conveyor.Store String) (e : conveyor.Get String) entry,
      conveyor.pyIndex s.processing_queue e.item = some entry →
      conveyor.do_get s e =
        .ok (s, { e with triggered := true, value := some entry }, none)) ∧
    (∀ (s : conveyor.Store String) (e : conveyor.Get String),
      conveyor.pyIndex s.processing_queue e.item = none →
      conveyor.do_get s e = .error "IndexError: list index out of range") := by
  constructor
  · intro s e entry h
    simp [conveyor.do_get, h, conveyor.ProcEntry.truthy]
  · intro s e h
    simp [conveyor.do_get, h]

/-- Witness for the amended C9 at concrete inputs: `get(0)` on a conveyor
with one processing entry triggers with that entry; `get(2)` on an empty
conveyor raises `IndexError`. -/
theorem c9_conveyor_get_semantics_witness :
    conveyor.pyIndex
        ({ conveyor.conv0 with
           processing_queue := [⟨"p", 0⟩] } : conveyor.Store String).processing_queue
        (conveyor.mkGet String 3 0).item = some ⟨"p", 0⟩ ∧
    conveyor.do_get { conveyor.conv0 with processing_queue := [⟨"p", 0⟩] }
        (conveyor.mkGet String 3 0) =
      .ok ({ conveyor.conv0 with processing_queue := [⟨"p", 0⟩] },
           ⟨3, 0, true, some ⟨"p", 0⟩⟩, none) ∧
    conveyor.pyIndex conveyor.conv0.processing_queue (conveyor.mkGet String 4 2).item = none ∧
    conveyor.do_get conveyor.conv0 (conveyor.mkGet String 4 2) =
      .error "IndexError: list index out of range" :=
  ⟨by decide,
   c9_conveyor_get_semantics.1 { conveyor.conv0 with processing_queue := [⟨"p", 0⟩] }
     (conveyor.mkGet String 3 0) ⟨"p", 0⟩ (by decide),
   by decide,
   c9_conveyor_get_semantics.2 conveyor.conv0 (conveyor.mkGet String 4 2) (by decide)⟩

/-- C5: after any trigger routine completes a pass over its queue, no
request remaining in the queue is triggered, and the requests that became
triggered during the pass were each removed from the queue exactly once
(remaining + removed = original count, with every removed request
triggered).  The removal-mismatch check of the loop is the fatal
`RuntimeError` branch of `Sim.triggerGo`, which a completed pass never
takes. -/
theorem c5_queue_invariant :
    (∀ (s : store.Store String) q res, (∀ r ∈ q, r.triggered = false) →
      store.trigger_put_go s q = .ok res →
      (∀ r ∈ res.queue, r.triggered = false) ∧
      res.queue.length + res.fired.length = q.length ∧
      (∀ r ∈ res.fired, r.triggered = true)) ∧
    (∀ (s : store.Store String) q res, (∀ r ∈ q, r.triggered = false) →
      store.trigger_get_go s q = .ok res →
      (∀ r ∈ res.queue, r.triggered = false) ∧
      res.queue.length + res.fired.length = q.length ∧
      (∀ r ∈ res.fired, r.triggered = true)) ∧
    (∀ (s : store.Store String) q res, (∀ r ∈ q, r.triggered = false) →
      store.trigger_peek_go s q = .ok res →
      (∀ r ∈ res.queue, r.triggered = false) ∧
      res.queue.length + res.fired.length = q.length ∧
      (∀ r ∈ res.fired, r.triggered = true)) ∧
    (∀ (s : store.Store String) q res, (∀ r ∈ q, r.triggered = false) →
      store.trigger_get_triggered_go s q = .ok res →
      (∀ r ∈ res.queue, r.triggered = false) ∧
      res.queue.length + res.fired.length = q.length ∧
      (∀ r ∈ res.fired, r.triggered = true)) ∧
    (∀ (s : conveyor.Store String) q res, (∀ r ∈ q, r.triggered = false) →
      conveyor.trigger_pop_go s q = .ok res →
      (∀ r ∈ res.queue, r.triggered = false) ∧
      res.queue.length + res.fired.length = q.length ∧
      (∀ r ∈ res.fired, r.triggered = true)) ∧
    (∀ (s : conveyor.Store String) q res, (∀ r ∈ q, r.triggered = false) →
      conveyor.trigger_push_go s q = .ok res →
      (∀ r ∈ res.queue, r.triggered = false) ∧
      res.queue.length + res.fired.length = q.length ∧
      (∀ r ∈ res.fired, r.triggered = true)) :=
  ⟨fun s q res hq h => Sim.triggerGo_untriggered _ _ _ _ s q res hq h,
   fun s q res hq h => Sim.triggerGo_untriggered _ _ _ _ s q res hq h,
   fun s q res hq h => Sim.triggerGo_untriggered _ _ _ _ s q res hq h,
   fun s q res hq h => Sim.triggerGo_untriggered _ _ _ _ s q res hq h,
   fun s q res hq h => Sim.triggerGo_untriggered _ _ _ _ s q res hq h,
   fun s q res hq h => Sim.triggerGo_untriggered _ _ _ _ s q res hq h⟩

/-- Witness for C5 at concrete inputs: a put pass on a singleton queue of a
capacity-1 store fires the request and leaves an empty, untriggered
queue. -/
theorem c5_queue_invariant_witness :
    (∀ r ∈ [store.mkPut (α := String) 0 "a"], r.triggered = false) ∧
    ((∀ r ∈ ([] : List (store.Put String)), r.triggered = false) ∧
     (([] : List (store.Put String)).length +
        [({ rid := 0, item := "a", triggered := true, value := some true } :
          store.Put String)].length =
        [store.mkPut (α := String) 0 "a"].length) ∧
     (∀ r ∈ [({ rid := 0, item := "a", triggered := true, value := some true } :
          store.Put String)], r.triggered = true)) :=
  ⟨by decide,
   c5_queue_invariant.1 store.store1 [store.mkPut 0 "a"]
     ⟨{ store.store1 with items := ["a"] }, [],
      [{ rid := 0, item := "a", triggered := true, value := some true }], 1⟩
     (by decide) (by decide)⟩

/-- C4: a Store of capacity C is a bounded FIFO queue: along any put/get
session (including arbitrary interleaved trigger passes, which is how the
environment delivers event callbacks), the item count never exceeds C, and
the values returned by successful gets, in order, followed by the items
still stored, are exactly the admitted items in admission order — so gets
return items in the order they were admitted and never exceed capacity. -/
theorem c4_store_bounded_fifo :
    ∀ (C : ℕ) (ops : List (store.SOp String)) (t : store.TraceSt String),
      store.runT C ops = .ok t →
      t.store.items.length ≤ C ∧ t.returned ++ t.store.items = t.admitted := by
  intro C ops t h
  unfold store.runT at h
  cases hinit : store.Store.init String (.fin (C : ℚ)) with
  | error m => rw [hinit] at h; cases h
  | ok s =>
    rw [hinit] at h
    have hs : s = ⟨.fin (C : ℚ), [], [], [], [], []⟩ := by
      unfold store.Store.init at hinit
      split at hinit
      · cases hinit
      · cases hinit; rfl
    subst hs
    have hJ : store.Jinv C (⟨⟨.fin (C : ℚ), [], [], [], [], []⟩, [], []⟩ : store.TraceSt String) := by
      refine ⟨rfl, by simp, rfl, ?_, ?_, ?_, ?_⟩ <;>
        exact fun r hr => absurd hr (List.not_mem_nil r)
    have hfin := store.foldlM_inv C ops _ t hJ h
    exact ⟨hfin.2.1, hfin.2.2.1⟩

/-- Witness for C4 at a concrete session: capacity 1, `put("a")` admits,
`put("b")` stays pending, `get()` returns "a". -/
theorem c4_store_bounded_fifo_witness :
    store.runT 1 [store.SOp.put "a", store.SOp.put "b", store.SOp.get] =
      .ok ⟨⟨.fin ((1 : ℕ) : ℚ), [], [store.mkPut 0 "b"], [], [], []⟩, ["a"], ["a"]⟩ ∧
    ((⟨⟨.fin ((1 : ℕ) : ℚ), [], [store.mkPut 0 "b"], [], [], []⟩, ["a"], ["a"]⟩ :
        store.TraceSt String).store.items.length ≤ 1 ∧
      (⟨⟨.fin ((1 : ℕ) : ℚ), [], [store.mkPut 0 "b"], [], [], []⟩, ["a"], ["a"]⟩ :
        store.TraceSt String).returned ++
        (⟨⟨.fin ((1 : ℕ) : ℚ), [], [store.mkPut 0 "b"], [], [], []⟩, ["a"], ["a"]⟩ :
          store.TraceSt String).store.items =
        (⟨⟨.fin ((1 : ℕ) : ℚ), [], [store.mkPut 0 "b"], [], [], []⟩, ["a"], ["a"]⟩ :
          store.TraceSt String).admitted) :=
  ⟨by decide,
   c4_store_bounded_fifo 1 [store.SOp.put "a", store.SOp.put "b", store.SOp.get] _ (by decide)⟩

namespace conveyor

/-- When `check_available` is false, a put trigger pass changes nothing:
the head request stays untriggered in the queue and the scan stops. -/
theorem trigger_put_go_blocked {α : Type} (now : ℚ) (c : Store α)
    (hna : check_available c now = .ok false) :
    ∀ q : List (Put α), (∀ r ∈ q, r.triggered = false) →
      trigger_put_go now c q = .ok ⟨c, q, [], min 1 q.length⟩ := by
  intro q hq
  cases q with
  | nil => simp [trigger_put_go, Sim.triggerGo]
  | cons r rest =>
    have hr : r.triggered = false := hq r (List.mem_cons_self _ _)
    have h1 : min 1 (rest.length + 1) = 1 := by omega
    simp [trigger_put_go, Sim.triggerGo, do_put, hna, Put.isTrig, hr, List.length_cons, h1]

end conveyor

/-- C6: counterexample.  The claim quantifies over any two consecutive
admissions; but once the most recent admission has been popped from
`processing_queue`, `_check_distance` returns 0 for the empty queue and
the next put admits immediately.  Concretely, on a `distance=10, speed=1`
conveyor: `put("a")` at t=0 admits; `push("a")` at t=1 readies it;
`pop()` at t=1 removes both the ready item and the processing entry;
`put("b")` at t=2 then triggers and is admitted although only
`2 - 0 = 2 < 10 = D/S` time units separate the two admissions. -/
theorem c6_spacing_violated_after_pop_counterexample :
    conveyor.putOp 0 conveyor.convA 0 "a" =
      .ok { conveyor.convA with processing_queue := [⟨"a", 0⟩] } ∧
    conveyor.do_push { conveyor.convA with processing_queue := [⟨"a", 0⟩] }
        (conveyor.mkPush 1 "a") =
      .ok ({ conveyor.convA with processing_queue := [⟨"a", 0⟩], ready_queue := ["a"] },
           ⟨1, "a", true, some true⟩, none) ∧
    conveyor.do_pop
        { conveyor.convA with processing_queue := [⟨"a", 0⟩], ready_queue := ["a"] }
        (conveyor.mkPop String 2) =
      .ok (conveyor.convA, ⟨2, true, some "a"⟩, none) ∧
    conveyor.putOp 2 conveyor.convA 3 "b" =
      .ok { conveyor.convA with processing_queue := [⟨"b", 2⟩] } ∧
    (2 : ℚ) - (⟨"a", 0⟩ : conveyor.ProcEntry String).startTime <
      conveyor.convA.distance / conveyor.convA.speed := by
  refine ⟨by decide, by decide, by decide, by decide, ?_⟩
  simp only [conveyor.convA]
  norm_num

/-- C6 (amended): conveyor spacing is enforced only relative to the most
recent entry still in `processing_queue`.  With spacing configured
(`distance = D ≠ -1`) and speed `S > 0`: while the previous admission is
still in the processing queue, a put can trigger only when at least
`D / S` simulated time units have elapsed since that entry's entry time,
and a put attempted earlier does not fail — the pass completes without
error and leaves the new request pending, untriggered, in the put queue;
but once `processing_queue` is empty (e.g. the most recent admission was
popped), `_check_distance` returns 0 and a put admits regardless of the
time elapsed since the previous admission. -/
theorem c6_conveyor_spacing :
    (∀ (c : conveyor.Store String) (now : ℚ) (e : conveyor.Put String)
        (s1 : conveyor.Store String) (e1 : conveyor.Put String) (p : Option Bool)
        (last : conveyor.ProcEntry String),
      0 < c.speed → c.distance ≠ -1 →
      c.processing_queue.getLast? = some last →
      e.triggered = false →
      conveyor.do_put now c e = .ok (s1, e1, p) → e1.triggered = true →
      c.distance / c.speed ≤ now - last.startTime) ∧
    (∀ (c : conveyor.Store String) (now : ℚ) (rid : Nat) (a : String)
        (last : conveyor.ProcEntry String),
      0 < c.speed → c.distance ≠ -1 →
      c.processing_queue.getLast? = some last →
      now - last.startTime < c.distance / c.speed →
      (∀ r ∈ c.put_queue, r.triggered = false) →
      conveyor.putOp now c rid a =
        .ok { c with put_queue := c.put_queue ++ [conveyor.mkPut rid a] }) ∧
    (∀ (c : conveyor.Store String) (now : ℚ),
      c.processing_queue = [] → conveyor.check_distance c now = 0) := by
  refine ⟨?_, ?_, ?_⟩
  · intro c now e s1 e1 p last hS hd hlast he h htrig
    unfold conveyor.do_put at h
    cases hav : conveyor.check_available c now with
    | error m => rw [hav] at h; cases h
    | ok b =>
      rw [hav] at h
      cases b with
      | false =>
        simp only at h
        cases h
        rw [he] at htrig
        cases htrig
      | true =>
        have hcd : conveyor.check_distance c now ≤ 0 := by
          by_contra hcd
          unfold conveyor.check_available at hav
          rw [if_neg hcd] at hav
          have := Except.ok.inj hav
          cases this
        unfold conveyor.check_distance at hcd
        rw [if_neg hd, hlast] at hcd
        simp only at hcd
        have h1 : c.distance - (now - last.startTime) * c.speed ≤ 0 := by
          have h2 := (div_le_iff₀ hS).mp hcd
          linarith
        rw [div_le_iff₀ hS]
        linarith
  · intro c now rid a last hS hd hlast hlt hq
    have hcdpos : 0 < conveyor.check_distance c now := by
      unfold conveyor.check_distance
      rw [if_neg hd, hlast]
      simp only
      have h2 := (lt_div_iff₀ hS).mp hlt
      apply div_pos _ hS
      linarith
    have hna : conveyor.check_available c now = .ok false := by
      unfold conveyor.check_available
      rw [if_neg (not_le.mpr hcdpos)]
    have hqall : ∀ r ∈ c.put_queue ++ [conveyor.mkPut rid a], r.triggered = false := by
      intro r hr
      rcases List.mem_append.mp hr with h1 | h1
      · exact hq r h1
      · simp only [List.mem_singleton] at h1
        subst h1; rfl
    unfold conveyor.putOp
    rw [conveyor.trigger_put_go_blocked now c hna _ hqall]
  · intro c now h
    unfold conveyor.check_distance
    rw [h]
    split <;> rfl

/-- Witness for C6 at concrete inputs: on a `distance=10, speed=1`
conveyor whose last admission was at t=0, a put that succeeds at t=12
satisfies `12 - 0 ≥ 10/1`, and a put attempted at t=3 stays pending in the
put queue without error. -/
theorem c6_conveyor_spacing_witness :
    ((0 : ℚ) < conveyor.convSpacing.speed ∧
     conveyor.convSpacing.distance ≠ -1 ∧
     conveyor.convSpacing.processing_queue.getLast? = some ⟨"p", 0⟩ ∧
     conveyor.do_put 12 conveyor.convSpacing (conveyor.mkPut 5 "z") =
       .ok ({ conveyor.convSpacing with processing_queue := [⟨"p", 0⟩, ⟨"z", 12⟩] },
            ⟨5, "z", true, some true⟩, none)) ∧
    conveyor.convSpacing.distance / conveyor.convSpacing.speed ≤
      (12 : ℚ) - (⟨"p", 0⟩ : conveyor.ProcEntry String).startTime ∧
    ((3 : ℚ) - (⟨"p", 0⟩ : conveyor.ProcEntry String).startTime <
      conveyor.convSpacing.distance / conveyor.convSpacing.speed ∧
     conveyor.putOp 3 conveyor.convSpacing 7 "q" =
       .ok { conveyor.convSpacing with put_queue := [conveyor.mkPut 7 "q"] }) ∧
    (conveyor.convA.processing_queue = ([] : List (conveyor.ProcEntry String)) ∧
     conveyor.check_distance conveyor.convA 5 = 0) := by
  have hcd : conveyor.check_distance conveyor.convSpacing 12 = -2 := by
    simp only [conveyor.check_distance, conveyor.convSpacing]
    norm_num
  have hav : conveyor.check_available conveyor.convSpacing 12 = .ok true := by
    simp only [conveyor.check_available, hcd]
    norm_num
    rfl
  have hput : conveyor.do_put 12 conveyor.convSpacing (conveyor.mkPut 5 "z") =
      .ok ({ conveyor.convSpacing with processing_queue := [⟨"p", 0⟩, ⟨"z", 12⟩] },
           ⟨5, "z", true, some true⟩, none) := by
    simp only [conveyor.do_put, hav]
    rfl
  have hlt3 : (3 : ℚ) - (⟨"p", 0⟩ : conveyor.ProcEntry String).startTime <
      conveyor.convSpacing.distance / conveyor.convSpacing.speed := by
    simp only [conveyor.convSpacing]
    norm_num
  refine ⟨⟨by decide, by decide, rfl, hput⟩, ?_, ⟨hlt3, ?_⟩, rfl, ?_⟩
  · exact c6_conveyor_spacing.1 conveyor.convSpacing 12 (conveyor.mkPut 5 "z")
      { conveyor.convSpacing with processing_queue := [⟨"p", 0⟩, ⟨"z", 12⟩] }
      ⟨5, "z", true, some true⟩ none ⟨"p", 0⟩ (by decide) (by decide) rfl rfl hput rfl
  · exact c6_conveyor_spacing.2.1 conveyor.convSpacing 3 7 "q" ⟨"p", 0⟩
      (by decide) (by decide) rfl hlt3 (fun r hr => absurd hr (List.not_mem_nil r))
  · exact c6_conveyor_spacing.2.2 conveyor.convA 5 rfl

/-- C7: for every Station/Order node, the number of busy workers in the
worker map never exceeds the configured worker count W (for any node whose
`_workerStatus` was never set, the map is the W-entry default), and
`getAvailableWorker` — which scans the map in insertion order and flips
the first free worker — returns `None` exactly when every worker is
busy. -/
theorem c7_worker_pool :
    ∀ b : test_yield.Base,
      (b.workerStatusField = none →
        test_yield.busyCount (test_yield.workerStatus b) ≤ b.worker) ∧
      ((test_yield.getAvailableWorker b).2 = none ↔
        ∀ p ∈ test_yield.workerStatus b, p.2 = true) := by
  intro b
  constructor
  · intro h
    unfold test_yield.busyCount
    calc (test_yield.workerStatus b).countP (fun p => p.2)
        ≤ (test_yield.workerStatus b).length := List.countP_le_length _
      _ = b.worker := by
          unfold test_yield.workerStatus
          rw [h]
          simp [test_yield.defaultWorkerStatus]
  · unfold test_yield.getAvailableWorker
    cases hf : (test_yield.workerStatus b).find? (fun p => !p.2) with
    | some pr =>
      simp only
      constructor
      · intro hcon; cases hcon
      · intro hall
        have hmem := List.mem_of_find?_eq_some hf
        have hpred := List.find?_some hf
        rw [hall pr hmem] at hpred
        cases hpred
    | none =>
      simp only
      constructor
      · intro _ p hp
        have := List.find?_eq_none.mp hf p hp
        simpa using this
      · intro _; trivial

/-- Witness for C7 at a concrete two-worker node. -/
theorem c7_worker_pool_witness :
    test_yield.b0.workerStatusField = none ∧
    test_yield.busyCount (test_yield.workerStatus test_yield.b0) ≤ test_yield.b0.worker ∧
    ((test_yield.getAvailableWorker test_yield.b0).2 = none ↔
      ∀ p ∈ test_yield.workerStatus test_yield.b0, p.2 = true) :=
  ⟨rfl, (c7_worker_pool test_yield.b0).1 rfl, (c7_worker_pool test_yield.b0).2⟩

/-- C10: on a node whose `workerStatus` setter never ran, the getter
rebuilds the all-free default map on every access, so `updateWorkerStatus`
(including the flip inside `getAvailableWorker`) leaves the node — and
hence the observable map — unchanged: every worker still reads free, and
two consecutive `getAvailableWorker` calls both return the first
worker. -/
theorem c10_unset_worker_map_frame :
    ∀ (b : test_yield.Base) (w : String),
      b.workerStatusField = none →
      test_yield.updateWorkerStatus b w = b ∧
      (∀ p ∈ test_yield.workerStatus (test_yield.updateWorkerStatus b w), p.2 = false) ∧
      (1 ≤ b.worker →
        (test_yield.getAvailableWorker b).2 = some (test_yield.workerName b 0) ∧
        (test_yield.getAvailableWorker b).1 = b ∧
        (test_yield.getAvailableWorker (test_yield.getAvailableWorker b).1).2 =
          some (test_yield.workerName b 0)) := by
  intro b w h
  have hupd : ∀ v : String, test_yield.updateWorkerStatus b v = b := by
    intro v
    unfold test_yield.updateWorkerStatus
    rw [h]
  refine ⟨hupd w, ?_, ?_⟩
  · rw [hupd w]
    intro p hp
    simp only [test_yield.workerStatus, h, Option.getD_none,
      test_yield.defaultWorkerStatus, List.mem_map] at hp
    obtain ⟨i, _, rfl⟩ := hp
    rfl
  · intro hW
    obtain ⟨n, hn⟩ : ∃ n, b.worker = n + 1 := ⟨b.worker - 1, by omega⟩
    have hws : test_yield.workerStatus b =
        (test_yield.workerName b 0, false) ::
          (List.range n).map (fun i => (test_yield.workerName b (i + 1), false)) := by
      simp only [test_yield.workerStatus, h, Option.getD_none,
        test_yield.defaultWorkerStatus, hn, List.range_succ_eq_map, List.map_cons,
        List.map_map]
      simp [Function.comp]
    have hfind : (test_yield.workerStatus b).find? (fun p => !p.2) =
        some (test_yield.workerName b 0, false) := by
      rw [hws]
      rfl
    have hgaw : test_yield.getAvailableWorker b =
        (test_yield.updateWorkerStatus b (test_yield.workerName b 0),
         some (test_yield.workerName b 0)) := by
      unfold test_yield.getAvailableWorker
      rw [hfind]
    refine ⟨by rw [hgaw], by rw [hgaw, hupd _], ?_⟩
    rw [hgaw, hupd _, hgaw]

/-- Witness for C10 at a concrete two-worker node: the flip is lost and
both consecutive calls return worker 0. -/
theorem c10_unset_worker_map_frame_witness :
    test_yield.b0.workerStatusField = none ∧
    test_yield.updateWorkerStatus test_yield.b0 "x" = test_yield.b0 ∧
    (1 ≤ test_yield.b0.worker ∧
     (test_yield.getAvailableWorker test_yield.b0).2 =
       some (test_yield.workerName test_yield.b0 0) ∧
     (test_yield.getAvailableWorker
         (test_yield.getAvailableWorker test_yield.b0).1).2 =
       some (test_yield.workerName test_yield.b0 0)) :=
  ⟨rfl, (c10_unset_worker_map_frame test_yield.b0 "x" rfl).1,
   by decide,
   ((c10_unset_worker_map_frame test_yield.b0 "x" rfl).2.2 (by decide)).1,
   ((c10_unset_worker_map_frame test_yield.b0 "x" rfl).2.2 (by decide)).2.2⟩
